import Mathlib

/-!
Verification of the equistore / metatensor labeled block-sparse tensor library.

The data model (Labels, TensorBlock, TensorMap) and the operations under
`equistore/operations` and `metatensor/operations` are shallowly embedded:
numeric array values become lists of `V` (a rational number or NaN, since the
library's floating-point arrays only matter here through exact arithmetic and
the NaN-propagation rules); a block's dense `values` array of shape
`(n_samples, *component_dims, n_properties)` is embedded row-major as a list of
flattened rows, one per sample (index of component `c`, property `p` inside a
row is `c * n_properties + p`, matching the numpy layout).  Fallible Python
code becomes `Except String`.  Non-finite division results (float `inf`/`nan`)
are collapsed to `V.nan`; no settled statement depends on distinguishing them.
-/

attribute [local semireducible] Rat.add Rat.mul Rat.sub Rat.inv

instance {ε α : Type} [DecidableEq ε] [DecidableEq α] :
    DecidableEq (Except ε α)
  | .error a, .error b =>
    if h : a = b then .isTrue (by rw [h]) else .isFalse (by simp [h])
  | .error _, .ok _ => .isFalse (by simp)
  | .ok _, .error _ => .isFalse (by simp)
  | .ok a, .ok b =>
    if h : a = b then .isTrue (by rw [h]) else .isFalse (by simp [h])

namespace Equistore

/-- An array cell: a finite (rational) value or IEEE NaN.  Infinities are
collapsed into `nan`; they appear in no statement below. -/
inductive V where
  | fin (q : ℚ)
  | nan
deriving DecidableEq, Repr

/-- Elementwise addition; NaN propagates. -/
def vadd : V → V → V
  | .fin a, .fin b => .fin (a + b)
  | _, _ => .nan

/-- Elementwise subtraction; NaN propagates. -/
def vsub : V → V → V
  | .fin a, .fin b => .fin (a - b)
  | _, _ => .nan

/-- Elementwise multiplication; NaN propagates. -/
def vmul : V → V → V
  | .fin a, .fin b => .fin (a * b)
  | _, _ => .nan

/-- Elementwise negation; NaN propagates. -/
def vneg : V → V
  | .fin a => .fin (-a)
  | .nan => .nan

/-- Elementwise division; NaN propagates, and division by zero (a non-finite
result in floating point) is collapsed to NaN. -/
def vdiv : V → V → V
  | .fin a, .fin b => if b = 0 then .nan else .fin (a / b)
  | _, _ => .nan

/-- One flattened row of values (components × properties, row-major). -/
abbrev Row := List V

def rAdd (a b : Row) : Row := List.zipWith vadd a b
def rSub (a b : Row) : Row := List.zipWith vsub a b
def rMul (a b : Row) : Row := List.zipWith vmul a b
def rDiv (a b : Row) : Row := List.zipWith vdiv a b
def rNeg (a : Row) : Row := a.map vneg

/-- A stack of rows: the dense `values` array of a block, one row per sample
(or per gradient sample). -/
abbrev Values := List Row

def vsDiv (a b : Values) : Values := List.zipWith rDiv a b

/-- `np.isclose` on two cells: `|a - b| <= atol + rtol * |b|` for finite
values; NaN is close to NaN only when `equalNan` is set. -/
def isclose (rtol atol : ℚ) (equalNan : Bool) : V → V → Bool
  | .fin a, .fin b => decide (|a - b| ≤ atol + rtol * |b|)
  | .nan, .nan => equalNan
  | _, _ => false

/-- `np.allclose` over two value arrays (shape equality is checked separately
by the callers, mirroring the Python code). -/
def allcloseValues (a b : Values) (rtol atol : ℚ) (equalNan : Bool) : Bool :=
  a.length == b.length &&
    (List.zip a b).all fun rr =>
      rr.1.length == rr.2.length &&
        (List.zip rr.1 rr.2).all fun cc => isclose rtol atol equalNan cc.1 cc.2

/-- Default `rtol` of `allclose` (`1e-13`). -/
def defaultRtol : ℚ := 1 / 10 ^ 13

/-- Default `atol` of `allclose` (`1e-12`). -/
def defaultAtol : ℚ := 1 / 10 ^ 12

/-- `Labels`: named integer columns plus rows, the library's index space. -/
structure Labels where
  names : List String
  rows : List (List Int)
deriving DecidableEq, Repr

/-- First-seen-order deduplication (used by the restructuring engine's
"union, deduplicated, preserving first-seen order" merges). -/
def dedupF {α : Type} [DecidableEq α] (l : List α) : List α :=
  l.foldl (fun acc x => if x ∈ acc then acc else acc ++ [x]) []

/-- Index of the first row equal to `r`, if any (`Labels.position`). -/
def rowIdx : List (List Int) → List Int → Option Nat
  | [], _ => none
  | x :: xs, r => if x = r then some 0 else (rowIdx xs r).map (· + 1)

/-- Index of a dimension name inside a name list. -/
def colIdx : List String → String → Option Nat
  | [], _ => none
  | x :: xs, n => if x = n then some 0 else (colIdx xs n).map (· + 1)

/-- A gradient sub-block: values indexed back to parent samples through the
first (`"sample"`) column of its `samples` labels.  `gradientsList` holds the
names of nested gradients (always empty for well-formed data; the divide
operation checks it and raises `NotImplementedError` otherwise). -/
structure GradientBlock where
  samples : Labels
  components : List Labels
  properties : Labels
  values : Values
  gradientsList : List String
deriving DecidableEq, Repr

/-- A `TensorBlock`: one labeled dense array plus named gradient sub-blocks. -/
structure TensorBlock where
  samples : Labels
  components : List Labels
  properties : Labels
  values : Values
  gradients : List (String × GradientBlock)
deriving DecidableEq, Repr

/-- A `TensorMap`: keys (one row per block) and the index-aligned blocks. -/
structure TensorMap where
  keys : Labels
  blocks : List TensorBlock
deriving DecidableEq, Repr

def emptyLabels : Labels := ⟨[], []⟩

def emptyGradient : GradientBlock := ⟨emptyLabels, [], emptyLabels, [], []⟩

def emptyBlock : TensorBlock := ⟨emptyLabels, [], emptyLabels, [], []⟩

/-- First gradient registered under parameter name `p` (`block.gradient(p)`). -/
def lookupGrad (gs : List (String × GradientBlock)) (p : String) :
    Option GradientBlock :=
  (gs.find? (fun g => g.1 == p)).map Prod.snd

/-- `TensorMap.block(key_row)`: the block stored at the first key row equal to
`r`. -/
def lookupBlock (T : TensorMap) (r : List Int) : Option TensorBlock :=
  (rowIdx T.keys.rows r).bind (fun i => T.blocks.get? i)

/-! ### Metadata checks shared by the operations

`_check_blocks`, `_check_same_gradients` and `_check_same_keys` live in the
operations' `_utils` module, which is not part of the observed source; they
are modelled from the spec. -/

/-- The ASCII apostrophe, used when assembling the library's error strings. -/
def q39 : String := String.mk [Char.ofNat 39]

/-- Python `repr` of a key row, as it appears inside error messages:
`(0,)`, `(1, 2)`, ... -/
def fmtRow (r : List Int) : String :=
  "(" ++ String.intercalate ", " (r.map toString) ++
    (if r.length == 1 then ",)" else ")")

/-- Modelled from the spec: `_check_blocks` (missing `_utils` module) —
per matched block pair the samples, components and properties must be
identical, "on mismatch fail with a metadata error identifying the offending
axis". -/
def checkBlocksMeta (fname : String) (b1 b2 : TensorBlock) :
    Except String Unit :=
  if b1.samples ≠ b2.samples then
    .error ("inputs to " ++ fname ++ " should have the same samples")
  else if b1.properties ≠ b2.properties then
    .error ("inputs to " ++ fname ++ " should have the same properties")
  else if b1.components ≠ b2.components then
    .error ("inputs to " ++ fname ++ " should have the same components")
  else .ok ()

/-- Modelled from the spec: the per-parameter part of `_check_same_gradients`
(missing `_utils` module) — gradients aligned by parameter name must have
identical samples, components and properties. -/
def checkGradPairs (fname : String) (g2s : List (String × GradientBlock)) :
    List (String × GradientBlock) → Except String Unit
  | [] => .ok ()
  | (p, g1) :: rest =>
    match lookupGrad g2s p with
    | none => .error ("inputs to " ++ fname ++ " miss gradient " ++ p)
    | some g2 =>
      if g1.samples ≠ g2.samples then
        .error ("inputs to " ++ fname ++
          " should have the same gradient samples")
      else if g1.properties ≠ g2.properties then
        .error ("inputs to " ++ fname ++
          " should have the same gradient properties")
      else if g1.components ≠ g2.components then
        .error ("inputs to " ++ fname ++
          " should have the same gradient components")
      else checkGradPairs fname g2s rest

/-- Modelled from the spec: `_check_same_gradients` (missing `_utils`
module) — "combined gradients must exist on the same parameter names on both
operands (or be absent on both; asymmetric gradient presence is an error)",
with identical per-parameter metadata. -/
def checkSameGradients (fname : String) (b1 b2 : TensorBlock) :
    Except String Unit :=
  if b1.gradients.map Prod.fst ≠ b2.gradients.map Prod.fst then
    .error ("inputs to " ++ fname ++ " should have the same gradients")
  else checkGradPairs fname b2.gradients b1.gradients

/-- Modelled from the spec: `_check_same_keys` (missing `_utils` module) —
"same key set (order-independent) is required first", with the same key
dimension names. -/
def sameKeySet (k1 k2 : Labels) : Bool :=
  k1.names == k2.names && k1.rows.all (fun r => k2.rows.contains r) &&
    k2.rows.all (fun r => k1.rows.contains r)

/-! ### allclose (equistore/operations/allclose.py)

The comparison functions are embedded together with an explicit trace of the
kinds of work they perform, in source order, to settle eager-validation
claims. -/

/-- One unit of observable work done by a fallible operation. -/
inductive Step where
  | shapeCheck
  | numericWork
  | metadataCheck
deriving DecidableEq, Repr

/-- `values.shape` of an embedded array (row count and per-row lengths). -/
def shapeOf (v : Values) : Nat × List Nat := (v.length, v.map List.length)

/-- The gradient-comparison loop at the end of `allclose_block_raise`:
compare values of gradients aligned by parameter name. -/
def allcloseGradLoop (b2 : TensorBlock) (rtol atol : ℚ) (en : Bool) :
    List (String × GradientBlock) → Except String Unit × List Step
  | [] => (.ok (), [])
  | (p, g1) :: rest =>
    match lookupGrad b2.gradients p with
    | none => (.error ("no gradient for parameter " ++ p), [])
    | some g2 =>
      if allcloseValues g1.values g2.values rtol atol en then
        match allcloseGradLoop b2 rtol atol en rest with
        | (res, t) => (res, Step.numericWork :: t)
      else
        (.error ("gradient " ++ q39 ++ p ++ q39 ++ " values are not allclose"),
          [Step.numericWork])

/-- `allclose_block_raise`, with its work trace: shape check, then the bulk
values comparison, then metadata validation, then gradient comparison —
exactly the source order. -/
def allcloseBlockRaiseT (b1 b2 : TensorBlock) (rtol atol : ℚ) (en : Bool) :
    Except String Unit × List Step :=
  if shapeOf b1.values ≠ shapeOf b2.values then
    (.error "values shapes are different", [Step.shapeCheck])
  else if allcloseValues b1.values b2.values rtol atol en then
    match checkBlocksMeta "allclose" b1 b2 with
    | .error e => (.error e, [Step.shapeCheck, Step.numericWork, Step.metadataCheck])
    | .ok _ =>
      match checkSameGradients "allclose" b1 b2 with
      | .error e =>
        (.error e,
          [Step.shapeCheck, Step.numericWork, Step.metadataCheck, Step.metadataCheck])
      | .ok _ =>
        match allcloseGradLoop b2 rtol atol en b1.gradients with
        | (res, t) =>
          (res,
            [Step.shapeCheck, Step.numericWork, Step.metadataCheck,
              Step.metadataCheck] ++ t)
  else (.error "values are not allclose", [Step.shapeCheck, Step.numericWork])

/-- `allclose_block_raise` (result only). -/
def allcloseBlockRaise (b1 b2 : TensorBlock) (rtol atol : ℚ) (en : Bool) :
    Except String Unit :=
  (allcloseBlockRaiseT b1 b2 rtol atol en).1

/-- The tensor-level error wrapper: `"blocks for key '<key>' are different"`. -/
def blockKeyMsg (r : List Int) : String :=
  "blocks for key " ++ q39 ++ fmtRow r ++ q39 ++ " are different"

/-- The tensor-level key mismatch message of `allclose_raise`. -/
def keysDifferMsg : String := "the tensor maps have different keys"

/-- The per-key loop of `allclose_raise`: look the key up in the second map,
compare the blocks, and wrap any block-level failure with the offending key. -/
def allcloseLoop (T2 : TensorMap) (rtol atol : ℚ) (en : Bool) :
    List (List Int × TensorBlock) → Except String Unit
  | [] => .ok ()
  | (r, b1) :: rest =>
    match lookupBlock T2 r with
    | none => .error ("no block for key " ++ fmtRow r)
    | some b2 =>
      match allcloseBlockRaise b1 b2 rtol atol en with
      | .error _ => .error (blockKeyMsg r)
      | .ok _ => allcloseLoop T2 rtol atol en rest

/-- `allclose_raise` on two tensor maps. -/
def allcloseRaiseMap (T1 T2 : TensorMap) (rtol atol : ℚ) (en : Bool) :
    Except String Unit :=
  if sameKeySet T1.keys T2.keys then
    allcloseLoop T2 rtol atol en (T1.keys.rows.zip T1.blocks)
  else .error keysDifferMsg

/-- `allclose`: true when `allclose_raise` raises nothing. -/
def allcloseMap (T1 T2 : TensorMap) (rtol atol : ℚ) (en : Bool) : Bool :=
  match allcloseRaiseMap T1 T2 rtol atol en with
  | .ok _ => true
  | .error _ => false

/-! ### divide (metatensor/operations/divide.py)

Only the `TensorMap / TensorMap` path is embedded (the scalar path is not
needed by any settled claim). -/

/-- The `"sample"` column entry of the `j`-th gradient sample row. -/
def sampleHead (g : GradientBlock) (j : Nat) : Int :=
  (g.samples.rows.getD j []).headD 0

/-- Indices of the gradient rows whose `"sample"` column equals `i`:
`_dispatch.where(gradient.samples.column("sample") == i_sample)[0]`. -/
def selIdx (g : GradientBlock) (i : Nat) : List Nat :=
  (List.range g.samples.rows.length).filter
    (fun j => sampleHead g j == (i : Int))

/-- The gradient values produced by `_divide_block_block`: for each parent
sample `i` in ascending order, the quotient-rule combination
`-A[i] * dB / B[i]**2 + dA / B[i]` of the gradient rows referencing `i`. -/
def divideGradValues (b1 b2 : TensorBlock) (g1 g2 : GradientBlock) : Values :=
  (List.range b1.samples.rows.length).flatMap fun i =>
    ((selIdx g1 i).zip (selIdx g2 i)).map fun jj =>
      rAdd
        (rDiv (rMul (rNeg (b1.values.getD i [])) (g2.values.getD jj.2 []))
          (rMul (b2.values.getD i []) (b2.values.getD i [])))
        (rDiv (g1.values.getD jj.1 []) (b2.values.getD i []))

/-- The gradient loop of `_divide_block_block`: look up the matching
gradient of the second block, reject nested gradients, and rebuild the values
while copying the first gradient's metadata verbatim. -/
def divideGradPairs (b1 b2 : TensorBlock) :
    List (String × GradientBlock) →
      Except String (List (String × GradientBlock))
  | [] => .ok []
  | (p, g1) :: rest =>
    match lookupGrad b2.gradients p with
    | none => .error ("no gradient for parameter " ++ p)
    | some g2 =>
      if g1.gradientsList != [] then
        .error "gradients of gradients are not supported"
      else if g2.gradientsList != [] then
        .error "gradients of gradients are not supported"
      else
        match divideGradPairs b1 b2 rest with
        | .error e => .error e
        | .ok tail =>
          .ok ((p,
            ⟨g1.samples, g1.components, g1.properties,
              divideGradValues b1 b2 g1 g2, []⟩) :: tail)

/-- `_divide_block_block`. -/
def divideBlockBlock (b1 b2 : TensorBlock) : Except String TensorBlock :=
  match divideGradPairs b1 b2 b1.gradients with
  | .error e => .error e
  | .ok gs =>
    .ok ⟨b1.samples, b1.components, b1.properties,
      vsDiv b1.values b2.values, gs⟩

/-- The per-key loop of `divide`, with its work trace: per block the metadata
check, then the gradient check, then the numeric division. -/
def divideLoop (B : TensorMap) :
    List (List Int × TensorBlock) →
      Except String (List TensorBlock) × List Step
  | [] => (.ok [], [])
  | (r, bA) :: rest =>
    match lookupBlock B r with
    | none => (.error ("no block for key " ++ fmtRow r), [])
    | some bB =>
      match checkBlocksMeta "divide" bA bB with
      | .error e => (.error e, [Step.metadataCheck])
      | .ok _ =>
        match checkSameGradients "divide" bA bB with
        | .error e => (.error e, [Step.metadataCheck, Step.metadataCheck])
        | .ok _ =>
          match divideBlockBlock bA bB with
          | .error e =>
            (.error e, [Step.metadataCheck, Step.metadataCheck, Step.numericWork])
          | .ok c =>
            match divideLoop B rest with
            | (.error e, t) =>
              (.error e,
                [Step.metadataCheck, Step.metadataCheck, Step.numericWork] ++ t)
            | (.ok tail, t) =>
              (.ok (c :: tail),
                [Step.metadataCheck, Step.metadataCheck, Step.numericWork] ++ t)

/-- `divide(A, B)` for a `TensorMap` second operand, with its work trace:
the key check first, then per block metadata checks followed by the numeric
division of that block. -/
def divideMapT (A B : TensorMap) : Except String TensorMap × List Step :=
  if sameKeySet A.keys B.keys then
    match divideLoop B (A.keys.rows.zip A.blocks) with
    | (.ok bs, t) => (.ok ⟨A.keys, bs⟩, Step.metadataCheck :: t)
    | (.error e, t) => (.error e, Step.metadataCheck :: t)
  else
    (.error "inputs to divide should have the same keys", [Step.metadataCheck])

/-- `divide(A, B)` (result only). -/
def divideMap (A B : TensorMap) : Except String TensorMap :=
  (divideMapT A B).1

/-! ### Array backend dispatch (`_dispatch.py`)

Arrays are tagged by their concrete runtime type; an embedded dispatch
function inspects the tag exactly like the `isinstance` chains of the
source.  The mathematical payload of `norm` is embedded as the squared
2-norm (the square root leaves ℚ); only which library's kernel runs is at
stake in the settled claims. -/

/-- A runtime array value: a numpy array, a torch tensor, or anything else. -/
inductive PyArr where
  | np (data : List ℚ)
  | torch (data : List ℚ)
  | other
deriving DecidableEq, Repr

/-- The `UNKNOWN_ARRAY_TYPE` message. -/
def unknownArrayType : String :=
  "unknown array type, only numpy arrays and torch tensors are supported"

/-- Which library's kernel ran. -/
inductive Backend where
  | numpyKernel
  | torchKernel
deriving DecidableEq, Repr

/-- `np.linalg.norm` (squared-norm payload, tagged numpy). -/
def npLinalgNorm (d : List ℚ) : Backend × ℚ :=
  (.numpyKernel, (d.map (fun x => x * x)).sum)

/-- `torch.linalg.norm` (squared-norm payload, tagged torch). -/
def torchLinalgNorm (d : List ℚ) : Backend × ℚ :=
  (.torchKernel, (d.map (fun x => x * x)).sum)

/-- `norm` of `metatensor/operations/_dispatch.py`: the `TorchTensor` branch
calls `np.linalg.norm` and the `np.ndarray` branch calls `torch.linalg.norm`
(the branches of the source are crossed). -/
def metatensorNorm : PyArr → Except String (Backend × ℚ)
  | .torch d => .ok (npLinalgNorm d)
  | .np d => .ok (torchLinalgNorm d)
  | .other => .error unknownArrayType

/-- `norm` of `equistore/operations/_dispatch.py`: numpy arrays go to
`np.linalg.norm`, torch tensors to `torch.linalg.norm`. -/
def equistoreNorm : PyArr → Except String (Backend × ℚ)
  | .np d => .ok (npLinalgNorm d)
  | .torch d => .ok (torchLinalgNorm d)
  | .other => .error unknownArrayType

/-- `_dispatch.all`. -/
def dispatchAll : PyArr → Except String Bool
  | .torch d => .ok (d.all (fun x => x != 0))
  | .np d => .ok (d.all (fun x => x != 0))
  | .other => .error unknownArrayType

/-- `_dispatch.where` (indices of true entries). -/
def dispatchWhere : PyArr → Except String (List Nat)
  | .torch d => .ok ((List.range d.length).filter (fun i => d.getD i 0 != 0))
  | .np d => .ok ((List.range d.length).filter (fun i => d.getD i 0 != 0))
  | .other => .error unknownArrayType

/-- `_dispatch.concatenate`, dispatching on the first array's type. -/
def dispatchConcatenate (arrays : List PyArr) : Except String PyArr
  :=
  match arrays.head? with
  | some (.torch _) =>
    .ok (.torch (arrays.flatMap fun a =>
      match a with
      | .torch d => d
      | _ => []))
  | some (.np _) =>
    .ok (.np (arrays.flatMap fun a =>
      match a with
      | .np d => d
      | _ => []))
  | _ => .error unknownArrayType

/-- Ascending insertion, stable (equal keys keep their original order). -/
def insertByLe {α : Type} (le : α → α → Bool) (x : α) : List α → List α
  | [] => [x]
  | y :: t => if le x y then x :: y :: t else y :: insertByLe le x t

/-- Stable insertion sort. -/
def sortByLe {α : Type} (le : α → α → Bool) (l : List α) : List α :=
  l.foldr (insertByLe le) []

/-- `np.unique`: sorted distinct values. -/
def npUnique (d : List ℚ) : List ℚ := sortByLe (fun a b => a ≤ b) (dedupF d)

/-- `_dispatch.unique` of `metatensor/operations/_dispatch.py`: the function
has no `else` branch, so for an unrecognized array type it falls off the end
and Python returns `None` (embedded as `none`) instead of raising. -/
def dispatchUnique : PyArr → Except String (Option PyArr)
  | .torch d => .ok (some (.torch (npUnique d)))
  | .np d => .ok (some (.np (npUnique d)))
  | .other => .ok none

/-- `_dispatch.unique_with_inverse`: same dispatch, but with the `else`
branch raising on unknown array types. -/
def dispatchUniqueWithInverse :
    PyArr → Except String (PyArr × List Nat)
  | .torch d =>
    .ok (.torch (npUnique d),
      d.map (fun x => ((npUnique d).findIdx? (fun y => y == x)).getD 0))
  | .np d =>
    .ok (.np (npUnique d),
      d.map (fun x => ((npUnique d).findIdx? (fun y => y == x)).getD 0))
  | .other => .error unknownArrayType

/-! ### Restructuring engine and block selection

The implementations live in the `equistore-core` native library, which is not
part of the observed source (only its Python test-suite is); they are
modelled from the spec, §4.4 (restructuring) and §4.3 (selection). -/

/-- Key-column indices kept after removing `dims`. -/
def keptIdx (names : List String) (dims : List String) : List Nat :=
  (List.range names.length).filter
    (fun i => !(dims.contains (names.getD i "")))

/-- Key-column indices removed (in the order `dims` lists them). -/
def removedIdx (names : List String) (dims : List String) : List Nat :=
  dims.filterMap (colIdx names)

/-- Project a key row onto the given column indices. -/
def pickIdx (idxs : List Nat) (r : List Int) : List Int :=
  idxs.map (fun i => r.getD i 0)

/-- The groups of `(removed-dims-value, block)` pairs sharing a reduced key,
in first-seen group order. -/
def keyGroups (dims : List String) (T : TensorMap) :
    List (List Int) × List (List (List Int × TensorBlock)) :=
  let kept := keptIdx T.keys.names dims
  let rem := removedIdx T.keys.names dims
  let reducedRows := T.keys.rows.map (pickIdx kept)
  let uniq := dedupF reducedRows
  (uniq, uniq.map fun rk =>
    ((T.keys.rows.zip T.blocks).filter
        (fun p => pickIdx kept p.1 == rk)).map
      (fun p => (pickIdx rem p.1, p.2)))

/-- Flattened row width contributed by the component axes. -/
def compCount (cs : List Labels) : Nat :=
  cs.foldl (fun a c => a * c.rows.length) 1

/-- Modelled from the spec: the zero-fill cell rule of
`move-to-properties` — "the value is taken from the contributing block if
that block has both the sample and the original property; otherwise the cell
is filled with zero". -/
def ktpCell (nrem : Nat) (group : List (List Int × TensorBlock))
    (s : List Int) (c : Nat) (pr : List Int) : V :=
  let rv := pr.take nrem
  let p := pr.drop nrem
  match group.find? (fun g => g.1 == rv) with
  | none => .fin 0
  | some g =>
    match rowIdx g.2.samples.rows s, rowIdx g.2.properties.rows p with
    | some si, some pi =>
      (g.2.values.getD si []).getD (c * g.2.properties.rows.length + pi)
        (.fin 0)
    | _, _ => .fin 0

/-- A gradient sample row re-indexed to the merged sample axis: the
`"sample"` entry becomes the position, in the merged samples, of the parent
sample row it referenced. -/
def reindexGradRow (b : TensorBlock) (mSamples : List (List Int))
    (row : List Int) : List Int :=
  match row with
  | [] => []
  | s :: rest =>
    (((rowIdx mSamples (b.samples.rows.getD s.toNat [])).getD 0 : Nat) : Int)
      :: rest

/-- Re-indexed gradient sample rows of one contributing block (empty when
the block has no gradient for the parameter). -/
def ktpGradRows (p : String) (mSamples : List (List Int))
    (g : List Int × TensorBlock) : List (List Int) :=
  match lookupGrad g.2.gradients p with
  | none => []
  | some gr => gr.samples.rows.map (reindexGradRow g.2 mSamples)

/-- Modelled from the spec: the zero-fill cell rule for gradients of
`move-to-properties` — "gradients, if present, follow the same property-axis
extension and zero-fill rule, with gradient sample rows taken verbatim per
contributing block (re-indexed to the merged sample axis)". -/
def ktpGradCell (nrem : Nat) (p : String) (mSamples : List (List Int))
    (group : List (List Int × TensorBlock))
    (grow : List Int) (c : Nat) (pr : List Int) : V :=
  let rv := pr.take nrem
  let pp := pr.drop nrem
  match group.find? (fun g => g.1 == rv) with
  | none => .fin 0
  | some g =>
    match lookupGrad g.2.gradients p with
    | none => .fin 0
    | some gr =>
      match (ktpGradRows p mSamples g).findIdx? (fun x => x == grow),
          rowIdx g.2.properties.rows pp with
      | some gi, some pi =>
        (gr.values.getD gi []).getD (c * g.2.properties.rows.length + pi)
          (.fin 0)
      | _, _ => .fin 0

/-- Modelled from the spec: the per-group merge of `move-to-properties`
(§4.4): properties are the removed key columns prepended to each
contributing block's properties (union, first-seen order), samples the
deduplicated union of the group's samples (first-seen order), cells filled
by `ktpCell` / `ktpGradCell`. -/
def ktpMergeGroup (dims : List String) (propNames : List String)
    (group : List (List Int × TensorBlock)) : TensorBlock :=
  let first := (group.headD ([], emptyBlock)).2
  let nrem := dims.length
  let mSamples := dedupF (group.flatMap (fun g => g.2.samples.rows))
  let mProps :=
    dedupF (group.flatMap (fun g =>
      g.2.properties.rows.map (fun p => g.1 ++ p)))
  let nc := compCount first.components
  let params := dedupF (group.flatMap (fun g => g.2.gradients.map Prod.fst))
  { samples := ⟨first.samples.names, mSamples⟩
    components := first.components
    properties := ⟨dims ++ propNames, mProps⟩
    values := mSamples.map (fun s =>
      (List.range nc).flatMap (fun c =>
        mProps.map (fun pr => ktpCell nrem group s c pr)))
    gradients := params.map (fun p =>
      let firstGrad :=
        ((group.filterMap (fun g => lookupGrad g.2.gradients p)).headD
          emptyGradient)
      let mGradRows := dedupF (group.flatMap (ktpGradRows p mSamples))
      let ngc := compCount firstGrad.components
      (p,
        { samples :=
            ⟨"sample" :: firstGrad.samples.names.tail, mGradRows⟩
          components := firstGrad.components
          properties := ⟨dims ++ propNames, mProps⟩
          values := mGradRows.map (fun grow =>
            (List.range ngc).flatMap (fun c =>
              mProps.map (fun pr =>
                ktpGradCell nrem p mSamples group grow c pr)))
          gradientsList := [] })) }

/-- Modelled from the spec: `keys_to_properties(dims)` ("move-to-properties"
of §4.4) — `NotFoundError` when a dimension name is missing from the keys,
otherwise group blocks by reduced key (first-seen order) and merge each
group with `ktpMergeGroup`. -/
def keysToProperties (dims : List String) (T : TensorMap) :
    Except String TensorMap :=
  if dims.any (fun d => (colIdx T.keys.names d).isNone) then
    .error "not found in the keys of this tensor map"
  else
    let kept := keptIdx T.keys.names dims
    let gs := keyGroups dims T
    let propNames :=
      ((T.blocks.headD emptyBlock).properties).names
    .ok ⟨⟨kept.map (fun i => T.keys.names.getD i ""), gs.1⟩,
      gs.2.map (ktpMergeGroup dims propNames)⟩

/-- Ascending lexicographic comparison of sample rows (column by column). -/
def lexLe : List Int → List Int → Bool
  | [], _ => true
  | _ :: _, [] => false
  | a :: as, b :: bs =>
    if a < b then true else if b < a then false else lexLe as bs

/-- Modelled from the spec: the per-group merge of `move-to-samples` —
samples get the removed key columns appended, rows emitted in
block-then-within-block original order, or stably sorted ascending by the
full sample tuple when `sortSamples` is set; properties must already be
identical across the group.  Gradient rows are re-indexed to the chosen
sample ordering, concatenated in block order. -/
def ktsMergeGroup (dims : List String) (sortSamples : Bool)
    (group : List (List Int × TensorBlock)) :
    Except String TensorBlock :=
  let first := (group.headD ([], emptyBlock)).2
  if group.any (fun g => g.2.properties ≠ first.properties) then
    .error "inconsistent metadata: properties differ between blocks"
  else
    let entries := group.flatMap (fun g =>
      (List.range g.2.samples.rows.length).map (fun si =>
        (g.2.samples.rows.getD si [] ++ g.1, g.2.values.getD si [])))
    let sorted :=
      if sortSamples then sortByLe (fun a b => lexLe a.1 b.1) entries
      else entries
    let mRows := sorted.map Prod.fst
    let params := dedupF (group.flatMap (fun g => g.2.gradients.map Prod.fst))
    .ok
      { samples := ⟨first.samples.names ++ dims, mRows⟩
        components := first.components
        properties := first.properties
        values := sorted.map Prod.snd
        gradients := params.map (fun p =>
          let firstGrad :=
            ((group.filterMap (fun g => lookupGrad g.2.gradients p)).headD
              emptyGradient)
          (p,
            { samples :=
                ⟨firstGrad.samples.names,
                  group.flatMap (fun g =>
                    match lookupGrad g.2.gradients p with
                    | none => []
                    | some gr =>
                      gr.samples.rows.map (fun row =>
                        match row with
                        | [] => []
                        | s :: rest =>
                          (((rowIdx mRows
                              (g.2.samples.rows.getD s.toNat [] ++ g.1)).getD
                                0 : Nat) : Int) :: rest))⟩
              components := firstGrad.components
              properties := first.properties
              values := group.flatMap (fun g =>
                match lookupGrad g.2.gradients p with
                | none => []
                | some gr => gr.values)
              gradientsList := [] })) }

/-- Modelled from the spec: `keys_to_samples(dims, sort_samples)`
("move-to-samples" of §4.4). -/
def keysToSamples (dims : List String) (sortSamples : Bool) (T : TensorMap) :
    Except String TensorMap :=
  if dims.any (fun d => (colIdx T.keys.names d).isNone) then
    .error "not found in the keys of this tensor map"
  else
    let kept := keptIdx T.keys.names dims
    let gs := keyGroups dims T
    match gs.2.mapM (ktsMergeGroup dims sortSamples) with
    | .error e => .error e
    | .ok bs =>
      .ok ⟨⟨kept.map (fun i => T.keys.names.getD i ""), gs.1⟩, bs⟩

/-- Selection failures of `TensorMap.block`. -/
inductive SelErr where
  | noMatch
  | ambiguous
  | tooMany
deriving DecidableEq, Repr

/-- The explicit discriminated selector of §4.3: an index, a key row, or a
set of named key-column constraints. -/
inductive BlockSelector where
  | byIndex (i : Nat)
  | byRow (r : List Int)
  | byNamed (cs : List (String × Int))
deriving DecidableEq, Repr

/-- Indices of the key rows satisfying all named constraints. -/
def matchingIdx (T : TensorMap) (cs : List (String × Int)) : List Nat :=
  (List.range T.keys.rows.length).filter (fun i =>
    cs.all (fun c =>
      match colIdx T.keys.names c.1 with
      | some j => (T.keys.rows.getD i []).getD j 0 == c.2
      | none => false))

/-- Resolve named constraints to a single block: `NoMatchError` when no row
qualifies, `AmbiguousMatchError` (pointing at the multi-block accessor) when
more than one does. -/
def resolveNamed (T : TensorMap) (cs : List (String × Int)) :
    Except SelErr TensorBlock :=
  match matchingIdx T cs with
  | [] => .error .noMatch
  | [i] => .ok (T.blocks.getD i emptyBlock)
  | _ => .error .ambiguous

/-- Modelled from the spec: `TensorMap.block` (§4.3, `equistore-core` is not
part of the observed source) — more than one positional selector is
`TooManyArgumentsError`; a single positional selector is an index, a key row
or named constraints; with no positional selector the keyword constraints
are resolved (no argument at all is only valid for a one-block map). -/
def blockSel (T : TensorMap) (positional : List BlockSelector)
    (kw : List (String × Int)) : Except SelErr TensorBlock :=
  if positional.length > 1 then .error .tooMany
  else
    match positional with
    | [.byIndex i] =>
      match T.blocks.get? i with
      | some b => .ok b
      | none => .error .noMatch
    | [.byRow r] =>
      match lookupBlock T r with
      | some b => .ok b
      | none => .error .noMatch
    | [.byNamed cs] => resolveNamed T cs
    | _ => resolveNamed T kw

/-- Modelled from the spec: `TensorMap.blocks(selector)` — "returns all
matching blocks (empty sequence allowed) without the ambiguity error". -/
def blocksSel (T : TensorMap) (sel : BlockSelector) : List TensorBlock :=
  match sel with
  | .byIndex i => (T.blocks.get? i).toList
  | .byRow r => (lookupBlock T r).toList
  | .byNamed cs => (matchingIdx T cs).map (fun i => T.blocks.getD i emptyBlock)

/-! ### The shared test fixture

The `TensorMap` built by `utils.tensor()` of the `equistore-core` test
suite, reconstructed from the assertions of `tests/tensor.py`: four blocks
under keys `(0,0), (1,0), (2,2), (2,3)`, each with a `"g"` gradient. -/

/-- `np.full`-style values: `n` rows of `w` copies of `q`. -/
def fullValues (n w : Nat) (q : ℚ) : Values :=
  List.replicate n (List.replicate w (V.fin q))

def fxBlock1 : TensorBlock :=
  { samples := ⟨["s"], [[0], [2], [4]]⟩
    components := [⟨["c"], [[0]]⟩]
    properties := ⟨["p"], [[0]]⟩
    values := fullValues 3 1 1
    gradients := [("g",
      { samples := ⟨["sample", "g"], [[0, -2], [2, 3]]⟩
        components := [⟨["c"], [[0]]⟩]
        properties := ⟨["p"], [[0]]⟩
        values := fullValues 2 1 11
        gradientsList := [] })] }

def fxBlock2 : TensorBlock :=
  { samples := ⟨["s"], [[0], [1], [3]]⟩
    components := [⟨["c"], [[0]]⟩]
    properties := ⟨["p"], [[3], [4], [5]]⟩
    values := fullValues 3 3 2
    gradients := [("g",
      { samples := ⟨["sample", "g"], [[0, -2], [0, 3], [2, -2]]⟩
        components := [⟨["c"], [[0]]⟩]
        properties := ⟨["p"], [[3], [4], [5]]⟩
        values := fullValues 3 3 12
        gradientsList := [] })] }

def fxBlock3 : TensorBlock :=
  { samples := ⟨["s"], [[0], [3], [6], [8]]⟩
    components := [⟨["c"], [[0], [1], [2]]⟩]
    properties := ⟨["p"], [[0]]⟩
    values := fullValues 4 3 3
    gradients := [("g",
      { samples := ⟨["sample", "g"], [[1, -2]]⟩
        components := [⟨["c"], [[0], [1], [2]]⟩]
        properties := ⟨["p"], [[0]]⟩
        values := fullValues 1 3 13
        gradientsList := [] })] }

def fxBlock4 : TensorBlock :=
  { samples := ⟨["s"], [[0], [1], [2], [5]]⟩
    components := [⟨["c"], [[0], [1], [2]]⟩]
    properties := ⟨["p"], [[0]]⟩
    values := fullValues 4 3 4
    gradients := [("g",
      { samples := ⟨["sample", "g"], [[0, 1], [3, 3]]⟩
        components := [⟨["c"], [[0], [1], [2]]⟩]
        properties := ⟨["p"], [[0]]⟩
        values := fullValues 2 3 14
        gradientsList := [] })] }

def fixtureTensor : TensorMap :=
  ⟨⟨["key_1", "key_2"], [[0, 0], [1, 0], [2, 2], [2, 3]]⟩,
    [fxBlock1, fxBlock2, fxBlock3, fxBlock4]⟩

/-! ### Statement-side predicates and concrete instances -/

/-- Is the cell a finite value? -/
def isFinB : V → Bool
  | .fin _ => true
  | .nan => false

/-- No cell of a value array is NaN. -/
def noNanValues (v : Values) : Bool :=
  v.all (fun r => r.all isFinB)

/-- No cell of the block's values or of its gradients' values is NaN. -/
def noNanBlock (b : TensorBlock) : Bool :=
  noNanValues b.values && b.gradients.all (fun g => noNanValues g.2.values)

/-- No cell anywhere in the tensor map is NaN. -/
def noNanMap (T : TensorMap) : Bool :=
  T.blocks.all noNanBlock

/-- The construction-time invariants of `TensorMap` that key-based lookup
relies on: no duplicate key rows, keys and blocks of equal length, and no
duplicate gradient parameter names inside a block. -/
def WfLookup (T : TensorMap) : Prop :=
  T.keys.rows.Nodup ∧ T.blocks.length = T.keys.rows.length ∧
    ∀ b ∈ T.blocks, (b.gradients.map Prod.fst).Nodup

instance (T : TensorMap) : Decidable (WfLookup T) := by
  unfold WfLookup; infer_instance

/-- The gradient rows referencing parent sample `i`, read through the
gradient's samples metadata (`"sample"` column equal to `i`). -/
def gradRowsFor (g : GradientBlock) (i : Nat) : Values :=
  (selIdx g i).map (fun j => g.values.getD j [])

/-- The gradient's samples are sorted ascending by the `"sample"` column. -/
def SortedGradSamples (g : GradientBlock) : Prop :=
  List.Pairwise (fun a b => a.headD 0 ≤ b.headD 0) g.samples.rows

/-- Every gradient row references a valid parent sample of `b`. -/
def ValidGradRefs (g : GradientBlock) (b : TensorBlock) : Prop :=
  ∀ r ∈ g.samples.rows, 0 ≤ r.headD 0 ∧ r.headD 0 < (b.samples.rows.length : Int)

/-- The shape of a trace emitted by the block loop of `divide`: zero or more
complete `[metadata, metadata, numeric]` groups, optionally ending in a
truncated group whose metadata check failed. -/
inductive DivTraceOk : List Step → Prop
  | nil : DivTraceOk []
  | stopBlocks : DivTraceOk [Step.metadataCheck]
  | stopGrads : DivTraceOk [Step.metadataCheck, Step.metadataCheck]
  | group (t : List Step) : DivTraceOk t →
      DivTraceOk (Step.metadataCheck :: Step.metadataCheck :: Step.numericWork :: t)

/-! #### Concrete instances used by counterexamples and witnesses -/

/-- Single-sample, single-property block holding the value 7. -/
def witBlock : TensorBlock :=
  { samples := ⟨["s"], [[0]]⟩
    components := []
    properties := ⟨["p"], [[0]]⟩
    values := [[.fin 7]]
    gradients := [] }

/-- One-block map holding the value 7. -/
def witMap : TensorMap := ⟨⟨["k"], [[0]]⟩, [witBlock]⟩

/-- Single-cell block whose value is NaN. -/
def nanBlock : TensorBlock :=
  { samples := ⟨["s"], [[0]]⟩
    components := []
    properties := ⟨["p"], [[0]]⟩
    values := [[.nan]]
    gradients := [] }

/-- One-block map whose single value is NaN. -/
def nanMap : TensorMap := ⟨⟨["k"], [[0]]⟩, [nanBlock]⟩

/-- First operand of the `divide` quotient-rule counterexample: its `"g"`
gradient lists its samples with the `"sample"` column out of order
(`[1, 0]`). -/
def cexA : TensorBlock :=
  { samples := ⟨["s"], [[0], [1]]⟩
    components := []
    properties := ⟨["p"], [[0]]⟩
    values := [[.fin 2], [.fin 4]]
    gradients := [("g",
      { samples := ⟨["sample", "g"], [[1, 7], [0, 7]]⟩
        components := []
        properties := ⟨["p"], [[0]]⟩
        values := [[.fin 10], [.fin 20]]
        gradientsList := [] })] }

/-- Second operand of the quotient-rule counterexample: identical metadata
(including the gradient's samples), different values. -/
def cexB : TensorBlock :=
  { samples := ⟨["s"], [[0], [1]]⟩
    components := []
    properties := ⟨["p"], [[0]]⟩
    values := [[.fin 1], [.fin 2]]
    gradients := [("g",
      { samples := ⟨["sample", "g"], [[1, 7], [0, 7]]⟩
        components := []
        properties := ⟨["p"], [[0]]⟩
        values := [[.fin 1], [.fin 3]]
        gradientsList := [] })] }

def cexTA : TensorMap := ⟨⟨["k"], [[0]]⟩, [cexA]⟩

def cexTB : TensorMap := ⟨⟨["k"], [[0]]⟩, [cexB]⟩

/-- The `"g"` gradient of the block produced by `divide(cexTA, cexTB)`. -/
def cexOutGrad : GradientBlock :=
  match divideMap cexTA cexTB with
  | .ok M =>
    (lookupGrad (M.blocks.headD emptyBlock).gradients "g").getD emptyGradient
  | .error _ => emptyGradient

/-- Blocks whose values differ beyond tolerance while their properties also
differ: used to observe the work order of `allclose_block_raise`. -/
def ordBlock1 : TensorBlock :=
  { samples := ⟨["s"], [[0]]⟩
    components := []
    properties := ⟨["p"], [[0]]⟩
    values := [[.fin 0]]
    gradients := [] }

def ordBlock2 : TensorBlock :=
  { samples := ⟨["s"], [[0]]⟩
    components := []
    properties := ⟨["q"], [[0]]⟩
    values := [[.fin 1]]
    gradients := [] }

/-- Two one-block maps with equal blocks but differently named keys. -/
def keyNameMap1 : TensorMap := ⟨⟨["key1"], [[0]]⟩, [witBlock]⟩

def keyNameMap2 : TensorMap := ⟨⟨["key2"], [[0]]⟩, [witBlock]⟩

/-- A map equal to `witMap` except for one value far outside tolerance. -/
def witMapFar : TensorMap :=
  ⟨⟨["k"], [[0]]⟩,
    [{ samples := ⟨["s"], [[0]]⟩
       components := []
       properties := ⟨["p"], [[0]]⟩
       values := [[.fin 12]]
       gradients := [] }]⟩

/-! #### Expected outputs of the restructuring fixture runs -/

/-- The first merged block of `keys_to_properties(["key_1"])` on the
fixture: blocks `(0,0)` and `(1,0)` merged along the property axis. -/
def ktpBlock0 : TensorBlock :=
  { samples := ⟨["s"], [[0], [2], [4], [1], [3]]⟩
    components := [⟨["c"], [[0]]⟩]
    properties := ⟨["key_1", "p"], [[0, 0], [1, 3], [1, 4], [1, 5]]⟩
    values :=
      [[.fin 1, .fin 2, .fin 2, .fin 2],
        [.fin 1, .fin 0, .fin 0, .fin 0],
        [.fin 1, .fin 0, .fin 0, .fin 0],
        [.fin 0, .fin 2, .fin 2, .fin 2],
        [.fin 0, .fin 2, .fin 2, .fin 2]]
    gradients := [("g",
      { samples := ⟨["sample", "g"], [[0, -2], [2, 3], [0, 3], [4, -2]]⟩
        components := [⟨["c"], [[0]]⟩]
        properties := ⟨["key_1", "p"], [[0, 0], [1, 3], [1, 4], [1, 5]]⟩
        values :=
          [[.fin 11, .fin 12, .fin 12, .fin 12],
            [.fin 11, .fin 0, .fin 0, .fin 0],
            [.fin 0, .fin 12, .fin 12, .fin 12],
            [.fin 0, .fin 12, .fin 12, .fin 12]]
        gradientsList := [] })] }

/-- Sample rows of the merged third block of
`keys_to_samples(["key_2"], sort_samples=True)` on the fixture. -/
def ktsSortedRows : List (List Int) :=
  [[0, 2], [0, 3], [1, 3], [2, 3], [3, 2], [5, 3], [6, 2], [8, 2]]

/-- Sample rows of the same block with `sort_samples=False`
(block-then-within-block original order). -/
def ktsUnsortedRows : List (List Int) :=
  [[0, 2], [3, 2], [6, 2], [8, 2], [0, 3], [1, 3], [2, 3], [5, 3]]

/-- Decidability of the sortedness precondition. -/
instance (g : GradientBlock) : Decidable (SortedGradSamples g) := by
  unfold SortedGradSamples; exact List.instDecidablePairwise _

/-- Decidability of the valid-reference precondition. -/
instance (g : GradientBlock) (b : TensorBlock) :
    Decidable (ValidGradRefs g b) := by
  unfold ValidGradRefs; infer_instance

/-- A gradient whose samples are sorted ascending by the sample column. -/
def sGradA : GradientBlock :=
  { samples := ⟨["sample", "g"], [[0, 7], [1, 7]]⟩
    components := []
    properties := ⟨["p"], [[0]]⟩
    values := [[.fin 20], [.fin 10]]
    gradientsList := [] }

/-- The matching sorted gradient of the second operand. -/
def sGradB : GradientBlock :=
  { samples := ⟨["sample", "g"], [[0, 7], [1, 7]]⟩
    components := []
    properties := ⟨["p"], [[0]]⟩
    values := [[.fin 3], [.fin 1]]
    gradientsList := [] }

/-- First operand with a sorted gradient (used by witnesses). -/
def srtA : TensorBlock :=
  { samples := ⟨["s"], [[0], [1]]⟩
    components := []
    properties := ⟨["p"], [[0]]⟩
    values := [[.fin 2], [.fin 4]]
    gradients := [("g", sGradA)] }

/-- Second operand with a sorted gradient (used by witnesses). -/
def srtB : TensorBlock :=
  { samples := ⟨["s"], [[0], [1]]⟩
    components := []
    properties := ⟨["p"], [[0]]⟩
    values := [[.fin 1], [.fin 2]]
    gradients := [("g", sGradB)] }

/-- The block produced by dividing srtA by srtB. -/
def srtC : TensorBlock :=
  match divideBlockBlock srtA srtB with
  | .ok c => c
  | .error _ => emptyBlock

/-! ## Theorems -/

/-- C1: on the fixture TensorMap with key rows (0,0),(1,0),(2,2),(2,3),
moving key_1 to properties yields keys [(0,),(2,),(3,)] (the distinct key_2
values); the first merged block (from the two blocks sharing key_2 = 0) has
property rows the union of (key_1, p) pairs of the two blocks, samples the
deduplicated union of their samples, and every cell whose contributing block
lacks the sample or the property equal to zero — its explicit values and
gradient (spelled out in ktpBlock0) show value 0 exactly at those cells and
the contributing block's value elsewhere. -/
theorem keys_to_properties_fixture_merge :
    (keysToProperties ["key_1"] fixtureTensor).map
        (fun M => (M.keys, M.blocks.headD emptyBlock)) =
      .ok (⟨["key_2"], [[0], [2], [3]]⟩, ktpBlock0) ∧
      ktpBlock0.samples.rows =
        dedupF (fxBlock1.samples.rows ++ fxBlock2.samples.rows) ∧
      ktpBlock0.properties.rows =
        dedupF (fxBlock1.properties.rows.map (fun p => [0] ++ p) ++
          fxBlock2.properties.rows.map (fun p => [1] ++ p)) := by
  refine ⟨by decide, by decide, by decide⟩

/-- C3: on the fixture, moving key_2 to samples appends the key_2 column to
the merged block's samples; with sort_samples = true the merged third
block's sample rows are sorted ascending lexicographically by the full
(s, key_2) tuple, and with sort_samples = false they appear in
block-then-within-block original order. -/
theorem keys_to_samples_fixture_order :
    (keysToSamples ["key_2"] true fixtureTensor).map
        (fun M => (M.keys.rows, (M.blocks.getD 2 emptyBlock).samples)) =
      .ok ([[0], [1], [2]], ⟨["s", "key_2"], ktsSortedRows⟩) ∧
      (keysToSamples ["key_2"] false fixtureTensor).map
        (fun M => (M.blocks.getD 2 emptyBlock).samples) =
      .ok ⟨["s", "key_2"], ktsUnsortedRows⟩ ∧
      sortByLe lexLe ktsUnsortedRows = ktsSortedRows ∧
      List.Pairwise (fun a b => lexLe a b = true) ktsSortedRows := by
  refine ⟨by decide, by decide, by decide, by decide⟩

/-- C9: block selection on the fixture — block(key_1 = 3) fails with the
no-match error, block(key_2 = 0) fails with the ambiguous-match error,
block(2) returns the block stored at key-row index 2, two positional
selectors fail with the too-many-arguments error, and blocks(key_2 = 0)
returns both matching blocks without the ambiguity error. -/
theorem block_selection_fixture :
    blockSel fixtureTensor [] [("key_1", 3)] = .error .noMatch ∧
      blockSel fixtureTensor [] [("key_2", 0)] = .error .ambiguous ∧
      blockSel fixtureTensor [.byIndex 2] [] = .ok fxBlock3 ∧
      blockSel fixtureTensor [.byIndex 3, .byIndex 4] [] = .error .tooMany ∧
      blocksSel fixtureTensor (.byNamed [("key_2", 0)]) =
        [fxBlock1, fxBlock2] := by
  refine ⟨by decide, by decide, by decide, by decide, by decide⟩

/-- C5: the metatensor dispatch functions raise the unsupported-array-type
error on an unrecognized array — except unique, whose missing else branch
makes it silently return None (the code slip: its sibling
unique_with_inverse, directly below it in the source, does raise). -/
theorem dispatch_unique_silent_none :
    dispatchUnique .other = .ok none ∧
      dispatchUniqueWithInverse .other = .error unknownArrayType ∧
      dispatchAll .other = .error unknownArrayType ∧
      dispatchWhere .other = .error unknownArrayType ∧
      dispatchConcatenate [.other] = .error unknownArrayType ∧
      metatensorNorm .other = .error unknownArrayType := by
  exact ⟨rfl, rfl, rfl, rfl, rfl, rfl⟩

/-- C6: the metatensor norm dispatcher sends a numpy array to torch's
linalg.norm and a torch tensor to numpy's linalg.norm (swapped branches),
whereas the equistore dispatcher sends each array to its own backend — so
the two dispatchers disagree on every supported input, refuting the claimed
equivalence. -/
theorem metatensor_norm_swapped_backends :
    metatensorNorm (.np [3]) = .ok (.torchKernel, 9) ∧
      equistoreNorm (.np [3]) = .ok (.numpyKernel, 9) ∧
      metatensorNorm (.torch [3]) = .ok (.numpyKernel, 9) ∧
      equistoreNorm (.torch [3]) = .ok (.torchKernel, 9) ∧
      metatensorNorm (.np [3]) ≠ equistoreNorm (.np [3]) := by
  refine ⟨by decide, by decide, by decide, by decide, by decide⟩

/-- C4 counterexample: a TensorMap holding a single NaN value compared with
itself under default arguments (equal_nan = false) — allclose returns false
and allclose_raise raises, because NaN is not close to itself, refuting the
claim for every TensorMap. -/
theorem allclose_self_nan_counterexample :
    allcloseMap nanMap nanMap defaultRtol defaultAtol false = false ∧
      allcloseRaiseMap nanMap nanMap defaultRtol defaultAtol false =
        .error (blockKeyMsg [0]) := by
  refine ⟨by decide, by decide⟩

/-- C7 counterexample: two blocks of equal shape whose values differ beyond
tolerance and whose properties also differ — allclose_block_raise performs
the bulk numeric values comparison and fails from it without ever reaching
a metadata check (trace [shapeCheck, numericWork]), so metadata validation
does not happen before bulk numeric work, and the failing call has already
done numeric work when it raises. -/
theorem allclose_block_numeric_before_metadata :
    allcloseBlockRaiseT ordBlock1 ordBlock2 defaultRtol defaultAtol false =
        (.error "values are not allclose", [Step.shapeCheck, Step.numericWork]) ∧
      ordBlock1.properties ≠ ordBlock2.properties ∧
      Step.metadataCheck ∉ [Step.shapeCheck, Step.numericWork] := by
  refine ⟨by decide, by decide, by decide⟩

/-- Helper: the trace of the divide block loop always consists of complete
metadata-metadata-numeric groups, possibly ending in a truncated group whose
metadata check failed. -/
theorem divideLoop_trace_ok (B : TensorMap) :
    ∀ pairs, DivTraceOk (divideLoop B pairs).2 := by
  intro pairs
  induction pairs with
  | nil => exact .nil
  | cons hd tl ih =>
    obtain ⟨r, bA⟩ := hd
    simp only [divideLoop]
    cases hl : lookupBlock B r with
    | none => exact .nil
    | some bB =>
      dsimp only
      cases hc : checkBlocksMeta "divide" bA bB with
      | error e => exact .stopBlocks
      | ok u =>
        dsimp only
        cases hg : checkSameGradients "divide" bA bB with
        | error e => exact .stopGrads
        | ok u2 =>
          dsimp only
          cases hb : divideBlockBlock bA bB with
          | error e => exact .group [] .nil
          | ok c =>
            dsimp only
            cases hrec : divideLoop B tl with
            | mk res t =>
              rw [hrec] at ih
              cases res <;> exact .group t ih

/-- C7 amended: in divide, the tensor-level key check comes first and each
block's metadata checks precede that block's numeric division (though
numeric work on earlier blocks precedes validation of later blocks); in
allclose_block_raise the bulk values comparison always precedes any
metadata validation — its trace is either just the failed shape check or
starts with the shape check followed immediately by numeric work. -/
theorem divide_validates_before_numeric_per_block :
    (∀ A B : TensorMap,
        (divideMapT A B).2.head? = some Step.metadataCheck ∧
          DivTraceOk (divideMapT A B).2.tail) ∧
      ∀ b1 b2 : TensorBlock, ∀ rtol atol : ℚ, ∀ en : Bool,
        (allcloseBlockRaiseT b1 b2 rtol atol en).2 = [Step.shapeCheck] ∨
          (allcloseBlockRaiseT b1 b2 rtol atol en).2.take 2 =
            [Step.shapeCheck, Step.numericWork] := by
  constructor
  · intro A B
    unfold divideMapT
    by_cases hk : sameKeySet A.keys B.keys
    · rw [if_pos hk]
      cases hrec : divideLoop B (A.keys.rows.zip A.blocks) with
      | mk res t =>
        have h2 := divideLoop_trace_ok B (A.keys.rows.zip A.blocks)
        rw [hrec] at h2
        cases res <;> exact ⟨rfl, h2⟩
    · rw [if_neg hk]
      exact ⟨rfl, .nil⟩
  · intro b1 b2 rtol atol en
    unfold allcloseBlockRaiseT
    by_cases hs : shapeOf b1.values ≠ shapeOf b2.values
    · rw [if_pos hs]
      left; rfl
    · rw [if_neg hs]
      by_cases hv : allcloseValues b1.values b2.values rtol atol en = true
      · rw [if_pos hv]
        right
        cases checkBlocksMeta "allclose" b1 b2 with
        | error e => rfl
        | ok u =>
          dsimp only
          cases checkSameGradients "allclose" b1 b2 with
          | error e => rfl
          | ok u2 => rfl
      · rw [if_neg hv]
        right; rfl

/-- Helper: membership in a row list makes rowIdx succeed. -/
theorem rowIdx_isSome_of_mem {rows : List (List Int)} {r : List Int}
    (h : r ∈ rows) : (rowIdx rows r).isSome := by
  induction rows with
  | nil => cases h
  | cons x xs ih =>
    simp only [rowIdx]
    by_cases hx : x = r
    · rw [if_pos hx]; rfl
    · rw [if_neg hx]
      rcases List.mem_cons.1 h with h1 | h2
      · exact absurd h1.symm hx
      · cases hm : rowIdx xs r with
        | none => have := ih h2; rw [hm] at this; cases this
        | some i => rfl

/-- Helper: rowIdx returns an in-bounds index. -/
theorem rowIdx_lt {rows : List (List Int)} {r : List Int} {i : Nat}
    (h : rowIdx rows r = some i) : i < rows.length := by
  induction rows generalizing i with
  | nil => cases h
  | cons x xs ih =>
    simp only [rowIdx] at h
    by_cases hx : x = r
    · rw [if_pos hx] at h
      cases h
      exact Nat.zero_lt_succ _
    · rw [if_neg hx] at h
      cases hm : rowIdx xs r with
      | none => rw [hm] at h; cases h
      | some j =>
        rw [hm] at h
        simp only [Option.map_some'] at h
        cases h
        have := ih hm
        simp only [List.length_cons]
        omega

/-- Helper: looking up a key row that the map contains succeeds (under the
length invariant of TensorMap construction). -/
theorem lookupBlock_isSome {T2 : TensorMap} {r : List Int}
    (hlen : T2.blocks.length = T2.keys.rows.length)
    (hr : r ∈ T2.keys.rows) : (lookupBlock T2 r).isSome := by
  unfold lookupBlock
  cases hm : rowIdx T2.keys.rows r with
  | none =>
    have := rowIdx_isSome_of_mem hr
    rw [hm] at this; cases this
  | some i =>
    have hi := rowIdx_lt hm
    simp only [Option.some_bind]
    cases hg : T2.blocks.get? i with
    | none =>
      have : T2.blocks.length ≤ i := List.get?_eq_none.1 hg
      omega
    | some b => rfl

/-- Helper: every error emitted by the allclose per-key loop is the
block-key wrapper for one of the processed key rows. -/
theorem allcloseLoop_error_shape (T2 : TensorMap) (rtol atol : ℚ) (en : Bool) :
    ∀ pairs (e : String),
      (∀ rb ∈ pairs, (lookupBlock T2 (Prod.fst rb)).isSome) →
      allcloseLoop T2 rtol atol en pairs = .error e →
      ∃ r, r ∈ pairs.map Prod.fst ∧ e = blockKeyMsg r := by
  intro pairs
  induction pairs with
  | nil => intro e _ h; cases h
  | cons hd tl ih =>
    obtain ⟨r, b1⟩ := hd
    intro e hsome h
    simp only [allcloseLoop] at h
    cases hl : lookupBlock T2 r with
    | none =>
      have := hsome (r, b1) (List.mem_cons_self _ _)
      rw [hl] at this; cases this
    | some b2 =>
      rw [hl] at h
      dsimp only at h
      cases hb : allcloseBlockRaise b1 b2 rtol atol en with
      | error e2 =>
        rw [hb] at h
        dsimp only at h
        cases h
        exact ⟨r, by simp, rfl⟩
      | ok u =>
        rw [hb] at h
        dsimp only at h
        obtain ⟨r2, hmem, he⟩ :=
          ih e (fun rb hrb => hsome rb (List.mem_cons_of_mem _ hrb)) h
        exact ⟨r2, by simp [List.mem_map] at hmem ⊢; tauto, he⟩

/-- C8: on two TensorMaps whose key sets differ, allclose_raise raises the
error "the tensor maps have different keys" (which mentions "different
keys") and allclose returns false; and whenever allclose_raise fails with
the keys matching, the surfacing error is the per-block wrapper "blocks for
key '(k)' are different" for one of the first map's key rows. -/
theorem allclose_raise_error_context :
    (∀ T1 T2 : TensorMap, ∀ rtol atol : ℚ, ∀ en : Bool,
        sameKeySet T1.keys T2.keys = false →
          allcloseRaiseMap T1 T2 rtol atol en = .error keysDifferMsg ∧
            allcloseMap T1 T2 rtol atol en = false) ∧
      "the tensor maps have " ++ "different keys" = keysDifferMsg ∧
      ∀ T1 T2 : TensorMap, ∀ rtol atol : ℚ, ∀ en : Bool, ∀ e : String,
        T2.blocks.length = T2.keys.rows.length →
        allcloseRaiseMap T1 T2 rtol atol en = .error e →
        e = keysDifferMsg ∨ ∃ r, r ∈ T1.keys.rows ∧ e = blockKeyMsg r := by
  refine ⟨?_, rfl, ?_⟩
  · intro T1 T2 rtol atol en hk
    unfold allcloseRaiseMap allcloseMap
    rw [if_neg (by simp [hk])]
    unfold allcloseRaiseMap
    rw [if_neg (by simp [hk])]
    exact ⟨rfl, rfl⟩
  · intro T1 T2 rtol atol en e hlen h
    unfold allcloseRaiseMap at h
    by_cases hk : sameKeySet T1.keys T2.keys
    · rw [if_pos hk] at h
      right
      have hsub : ∀ r ∈ T1.keys.rows, r ∈ T2.keys.rows := by
        intro r hr
        unfold sameKeySet at hk
        simp only [Bool.and_eq_true, List.all_eq_true] at hk
        have := hk.1.2 r hr
        simpa using this
      obtain ⟨r, hmem, he⟩ :=
        allcloseLoop_error_shape T2 rtol atol en (T1.keys.rows.zip T1.blocks) e
          (fun rb hrb =>
            lookupBlock_isSome hlen (hsub rb.1 (List.of_mem_zip hrb).1)) h
      refine ⟨r, ?_, he⟩
      simp only [List.mem_map] at hmem
      obtain ⟨p, hp, hpr⟩ := hmem
      exact hpr ▸ (List.of_mem_zip hp).1
    · rw [if_neg hk] at h
      left
      cases h
      rfl

/-- Witness for C8: two one-block maps with equal blocks but key dimension
named key1 versus key2 give the different-keys error and a false allclose;
and a same-keys pair whose values differ surfaces the per-block wrapper
for key row (0,). -/
theorem allclose_raise_error_context_witness :
    (allcloseRaiseMap keyNameMap1 keyNameMap2 defaultRtol defaultAtol false =
        .error keysDifferMsg ∧
      allcloseMap keyNameMap1 keyNameMap2 defaultRtol defaultAtol false =
        false) ∧
      (blockKeyMsg [0] = keysDifferMsg ∨
        ∃ r, r ∈ witMap.keys.rows ∧ blockKeyMsg [0] = blockKeyMsg r) :=
  ⟨allclose_raise_error_context.1 keyNameMap1 keyNameMap2 defaultRtol
      defaultAtol false (by decide),
    allclose_raise_error_context.2.2 witMap witMapFar defaultRtol defaultAtol
      false (blockKeyMsg [0]) (by decide) (by decide)⟩

/-- Helper: a finite cell is within default tolerances of itself. -/
theorem isclose_self_fin {rtol atol : ℚ} (hr : 0 ≤ rtol) (ha : 0 ≤ atol)
    (q : ℚ) (en : Bool) : isclose rtol atol en (.fin q) (.fin q) = true := by
  simp only [isclose, sub_self, abs_zero, decide_eq_true_eq]
  exact add_nonneg ha (mul_nonneg hr (abs_nonneg q))

/-- Helper: zipping a list with itself pairs each element with itself. -/
theorem mem_zip_self {α : Type} {l : List α} {p : α × α}
    (h : p ∈ l.zip l) : p.1 = p.2 := by
  induction l with
  | nil => cases h
  | cons x t ih =>
    simp only [List.zip_cons_cons] at h
    rcases List.mem_cons.1 h with h1 | h2
    · rw [h1]
    · exact ih h2

/-- Helper: a NaN-free value array is allclose to itself. -/
theorem allcloseValues_self {rtol atol : ℚ} (hr : 0 ≤ rtol) (ha : 0 ≤ atol)
    {v : Values} (h : noNanValues v = true) (en : Bool) :
    allcloseValues v v rtol atol en = true := by
  simp only [allcloseValues, beq_self_eq_true, Bool.true_and,
    List.all_eq_true]
  intro rr hrr
  have h1 := mem_zip_self hrr
  have h2 : rr.1 ∈ v := (List.of_mem_zip hrr).1
  obtain ⟨a, b⟩ := rr
  simp only at h1
  subst h1
  simp only [beq_self_eq_true, Bool.true_and, List.all_eq_true]
  intro cc hcc
  have h3 := mem_zip_self hcc
  have h4 : cc.1 ∈ a := (List.of_mem_zip hcc).1
  obtain ⟨c, d⟩ := cc
  simp only at h3
  subst h3
  simp only
  simp only [noNanValues, List.all_eq_true] at h
  have h5 := h a h2 c h4
  cases c with
  | fin q => exact isclose_self_fin hr ha q en
  | nan => cases h5

/-- Helper: metadata validation of a block against itself passes. -/
theorem checkBlocksMeta_self (fname : String) (b : TensorBlock) :
    checkBlocksMeta fname b b = .ok () := by
  unfold checkBlocksMeta
  rw [if_neg (fun h => h rfl), if_neg (fun h => h rfl),
    if_neg (fun h => h rfl)]

/-- Helper: with unique parameter names, lookup finds the listed gradient. -/
theorem lookupGrad_nodup {l : List (String × GradientBlock)} {p : String}
    {g : GradientBlock} (hnd : (l.map Prod.fst).Nodup) (h : (p, g) ∈ l) :
    lookupGrad l p = some g := by
  induction l with
  | nil => cases h
  | cons hd t ih =>
    obtain ⟨q, hg⟩ := hd
    simp only [List.map_cons, List.nodup_cons] at hnd
    rcases List.mem_cons.1 h with h1 | h2
    · cases h1
      simp [lookupGrad]
    · by_cases hq : q = p
      · exfalso
        subst hq
        exact hnd.1 (List.mem_map.2 ⟨(q, g), h2, rfl⟩)
      · simp only [lookupGrad, List.find?_cons]
        have : ((q, hg).1 == p) = false := by simp [hq]
        rw [this]
        exact ih hnd.2 h2

/-- Helper: gradient metadata validation of a block against itself passes. -/
theorem checkGradPairs_self (fname : String)
    (full : List (String × GradientBlock))
    (hnd : (full.map Prod.fst).Nodup) :
    ∀ part, (∀ pg ∈ part, pg ∈ full) →
      checkGradPairs fname full part = .ok () := by
  intro part
  induction part with
  | nil => intro _; rfl
  | cons hd t ih =>
    obtain ⟨p, g1⟩ := hd
    intro hsub
    have hl : lookupGrad full p = some g1 :=
      lookupGrad_nodup hnd (hsub (p, g1) (List.mem_cons_self _ _))
    simp only [checkGradPairs, hl]
    rw [if_neg (fun h => h rfl), if_neg (fun h => h rfl),
      if_neg (fun h => h rfl)]
    exact ih (fun pg hpg => hsub pg (List.mem_cons_of_mem _ hpg))

/-- Helper: the same-gradients check of a block against itself passes. -/
theorem checkSameGradients_self (fname : String) (b : TensorBlock)
    (hnd : (b.gradients.map Prod.fst).Nodup) :
    checkSameGradients fname b b = .ok () := by
  unfold checkSameGradients
  rw [if_neg (fun h => h rfl)]
  exact checkGradPairs_self fname b.gradients hnd b.gradients (fun _ h => h)

/-- Helper: comparing a block's NaN-free gradients with themselves passes. -/
theorem allcloseGradLoop_self {rtol atol : ℚ} (hr : 0 ≤ rtol)
    (ha : 0 ≤ atol) (b : TensorBlock) (en : Bool)
    (hnd : (b.gradients.map Prod.fst).Nodup) :
    ∀ part,
      (∀ pg ∈ part, pg ∈ b.gradients ∧ noNanValues pg.2.values = true) →
      (allcloseGradLoop b rtol atol en part).1 = .ok () := by
  intro part
  induction part with
  | nil => intro _; rfl
  | cons hd t ih =>
    obtain ⟨p, g1⟩ := hd
    intro hsub
    have hmem := hsub (p, g1) (List.mem_cons_self _ _)
    have hl : lookupGrad b.gradients p = some g1 :=
      lookupGrad_nodup hnd hmem.1
    simp only [allcloseGradLoop, hl]
    rw [if_pos (allcloseValues_self hr ha hmem.2 en)]
    cases hrec : allcloseGradLoop b rtol atol en t with
    | mk res tr =>
      have := ih (fun pg hpg => hsub pg (List.mem_cons_of_mem _ hpg))
      rw [hrec] at this
      exact this

/-- Helper: a NaN-free block with unique gradient names compares equal to
itself under nonnegative tolerances. -/
theorem allcloseBlockRaise_self {rtol atol : ℚ} (hr : 0 ≤ rtol)
    (ha : 0 ≤ atol) (b : TensorBlock) (en : Bool)
    (hnd : (b.gradients.map Prod.fst).Nodup)
    (hn : noNanBlock b = true) :
    allcloseBlockRaise b b rtol atol en = .ok () := by
  simp only [noNanBlock, Bool.and_eq_true, List.all_eq_true] at hn
  unfold allcloseBlockRaise allcloseBlockRaiseT
  rw [if_neg (fun h => h rfl)]
  rw [if_pos (allcloseValues_self hr ha hn.1 en)]
  rw [checkBlocksMeta_self, checkSameGradients_self _ _ hnd]
  dsimp only
  cases hrec : allcloseGradLoop b rtol atol en b.gradients with
  | mk res tr =>
    have := allcloseGradLoop_self hr ha b en hnd b.gradients
      (fun pg hpg => ⟨hpg, hn.2 pg hpg⟩)
    rw [hrec] at this
    exact this

/-- Helper: with duplicate-free rows, rowIdx inverts indexing. -/
theorem rowIdx_nodup_getElem {rows : List (List Int)} (hnd : rows.Nodup) :
    ∀ i (h : i < rows.length), rowIdx rows rows[i] = some i := by
  induction rows with
  | nil => intro i h; cases h
  | cons x xs ih =>
    intro i h
    simp only [List.nodup_cons] at hnd
    cases i with
    | zero =>
      simp [rowIdx]
    | succ j =>
      have hj : j < xs.length := by simpa using h
      simp only [List.getElem_cons_succ, rowIdx]
      have hm : xs[j] ∈ xs := by
        exact List.getElem_mem hj
      rw [if_neg (fun he => hnd.1 (by rw [he]; exact hm))]
      rw [ih hnd.2 j hj]
      rfl

/-- Helper: a Labels key set equals itself. -/
theorem sameKeySet_refl (k : Labels) : sameKeySet k k = true := by
  simp only [sameKeySet, beq_self_eq_true, Bool.true_and, Bool.and_eq_true,
    List.all_eq_true]
  exact ⟨fun r hr => by simpa using hr, fun r hr => by simpa using hr⟩

/-- Helper: the allclose loop succeeds when every lookup returns the paired
block and every self comparison passes. -/
theorem allcloseLoop_self (T : TensorMap) (rtol atol : ℚ) (en : Bool) :
    ∀ pairs,
      (∀ rb ∈ pairs, lookupBlock T (Prod.fst rb) = some rb.2 ∧
        allcloseBlockRaise rb.2 rb.2 rtol atol en = .ok ()) →
      allcloseLoop T rtol atol en pairs = .ok () := by
  intro pairs
  induction pairs with
  | nil => intro _; rfl
  | cons hd tl ih =>
    obtain ⟨r, b1⟩ := hd
    intro hsub
    have h1 := hsub (r, b1) (List.mem_cons_self _ _)
    simp only [allcloseLoop, h1.1]
    rw [h1.2]
    exact ih (fun rb hrb => hsub rb (List.mem_cons_of_mem _ hrb))

/-- C4 amended: for every well-formed TensorMap whose values and gradient
values contain no NaN, allclose_raise(T, T) with default arguments raises
nothing and allclose(T, T) returns true.  (A NaN value breaks both, since
NaN is not close to itself under the default equal_nan = false.) -/
theorem allclose_self_no_nan (T : TensorMap) (hwf : WfLookup T)
    (hn : noNanMap T = true) :
    allcloseMap T T defaultRtol defaultAtol false = true ∧
      allcloseRaiseMap T T defaultRtol defaultAtol false = .ok () := by
  obtain ⟨hnd, hlen, hgrads⟩ := hwf
  have hr : (0 : ℚ) ≤ defaultRtol := by norm_num [defaultRtol]
  have ha : (0 : ℚ) ≤ defaultAtol := by norm_num [defaultAtol]
  simp only [noNanMap, List.all_eq_true] at hn
  have hraise : allcloseRaiseMap T T defaultRtol defaultAtol false = .ok () := by
    unfold allcloseRaiseMap
    rw [if_pos (sameKeySet_refl T.keys)]
    apply allcloseLoop_self
    intro rb hrb
    obtain ⟨i, hi, hget⟩ := List.mem_iff_getElem.1 hrb
    have hi1 : i < T.keys.rows.length := by
      simp only [List.length_zip] at hi
      omega
    have hi2 : i < T.blocks.length := by
      simp only [List.length_zip] at hi
      omega
    have hzip : (T.keys.rows.zip T.blocks)[i] =
        (T.keys.rows[i], T.blocks[i]) := List.getElem_zip ..
    rw [hzip] at hget
    have hb : rb.2 ∈ T.blocks := (List.of_mem_zip hrb).2
    constructor
    · rw [← hget]
      simp only [lookupBlock, rowIdx_nodup_getElem hnd i hi1,
        Option.some_bind]
      rw [List.get?_eq_getElem?, List.getElem?_eq_getElem hi2]
    · exact allcloseBlockRaise_self hr ha rb.2 false (hgrads rb.2 hb)
        (hn rb.2 hb)
  exact ⟨by unfold allcloseMap; rw [hraise], hraise⟩

/-- Witness for C4 amended: the one-block NaN-free map holding 7 compares
equal to itself. -/
theorem allclose_self_no_nan_witness :
    allcloseMap witMap witMap defaultRtol defaultAtol false = true ∧
      allcloseRaiseMap witMap witMap defaultRtol defaultAtol false = .ok () :=
  allclose_self_no_nan witMap (by decide) (by decide)

/-- C2 counterexample: TensorMaps cexTA, cexTB with identical keys and
identical per-block metadata (divide succeeds, so all its checks pass)
whose "g" gradient lists its samples with the "sample" column out of order;
the output gradient row referencing parent sample 1 holds 14, while the
quotient rule dA(1)/B[1] - A[1]·dB(1)/B[1]² gives 4 — the claim fails
value-by-value at parent sample 1. -/
theorem divide_gradient_claim_counterexample :
    (divideMap cexTA cexTB).isOk = true ∧
      cexOutGrad.samples.rows = [[1, 7], [0, 7]] ∧
      gradRowsFor cexOutGrad 1 = [[.fin 14]] ∧
      ((gradRowsFor ((lookupGrad cexA.gradients "g").getD emptyGradient) 1).zip
          (gradRowsFor ((lookupGrad cexB.gradients "g").getD emptyGradient) 1)).map
        (fun rr =>
          rSub (rDiv rr.1 (cexB.values.getD 1 []))
            (rDiv (rMul (cexA.values.getD 1 []) rr.2)
              (rMul (cexB.values.getD 1 []) (cexB.values.getD 1 [])))) =
        [[.fin 4]] ∧
      ([[V.fin 14]] : Values) ≠ [[V.fin 4]] := by
  refine ⟨by decide, by decide, by decide, by decide, by decide⟩

/-- Helper: a list sorted by a key splits into the sub-maximal part
followed by the part whose key equals the bound. -/
theorem sorted_split (k : ℕ → ℤ) (n : ℤ) :
    ∀ l : List ℕ, List.Pairwise (fun a b => k a ≤ k b) l →
      (∀ j ∈ l, k j ≤ n) →
      l = l.filter (fun j => !(k j == n)) ++ l.filter (fun j => k j == n) := by
  intro l
  induction l with
  | nil => intro _ _; rfl
  | cons a t ih =>
    intro hp hb
    rw [List.pairwise_cons] at hp
    by_cases hka : k a = n
    · have hall : ∀ b ∈ t, k b = n := by
        intro b hbt
        have h1 := hp.1 b hbt
        have h2 := hb b (List.mem_cons_of_mem _ hbt)
        omega
      have hf1 : (a :: t).filter (fun j => !(k j == n)) = [] := by
        rw [List.filter_eq_nil_iff]
        intro j hj
        rcases List.mem_cons.1 hj with h1 | h2
        · subst h1; simp [hka]
        · simp [hall j h2]
      have hf2 : (a :: t).filter (fun j => k j == n) = a :: t := by
        rw [List.filter_eq_self]
        intro j hj
        rcases List.mem_cons.1 hj with h1 | h2
        · subst h1; simp [hka]
        · simp [hall j h2]
      rw [hf1, hf2]
      rfl
    · rw [List.filter_cons, List.filter_cons]
      rw [if_pos (by simp [hka]), if_neg (by simp [hka])]
      rw [List.cons_append]
      congr 1
      exact ih hp.2 (fun j hj => hb j (List.mem_cons_of_mem _ hj))

/-- Helper: grouping a key-sorted index list by each key value in ascending
order and concatenating reproduces the list. -/
theorem range_flatMap_filter {α : Type} (k : ℕ → ℤ) (g : ℕ → α) :
    ∀ (n : ℕ) (l : List ℕ), List.Pairwise (fun a b => k a ≤ k b) l →
      (∀ j ∈ l, 0 ≤ k j ∧ k j < (n : ℤ)) →
      (List.range n).flatMap
        (fun i => (l.filter (fun j => k j == ((i : ℕ) : ℤ))).map g) =
        l.map g := by
  intro n
  induction n with
  | zero =>
    intro l _ hb
    cases l with
    | nil => rfl
    | cons a t =>
      have := hb a (List.mem_cons_self _ _)
      simp only [Nat.cast_zero] at this
      omega
  | succ n ih =>
    intro l hp hb
    have hb' : ∀ j ∈ l, k j ≤ (n : ℤ) := by
      intro j hj
      have := hb j hj
      push_cast at this
      omega
    have hsplit := sorted_split k (n : ℤ) l hp hb'
    rw [List.range_succ, List.flatMap_append]
    simp only [List.flatMap_cons, List.flatMap_nil, List.append_nil]
    have hl1p : List.Pairwise (fun a b => k a ≤ k b)
        (l.filter (fun j => !(k j == (n : ℤ)))) := hp.filter _
    have hl1b : ∀ j ∈ l.filter (fun j => !(k j == (n : ℤ))),
        0 ≤ k j ∧ k j < (n : ℤ) := by
      intro j hj
      rw [List.mem_filter] at hj
      have h1 := hb j hj.1
      have h2 : ¬ (k j = (n : ℤ)) := by simpa using hj.2
      push_cast at h1
      omega
    have hmain : (List.range n).flatMap
        (fun i => (l.filter (fun j => k j == ((i : ℕ) : ℤ))).map g) =
        (l.filter (fun j => !(k j == (n : ℤ)))).map g := by
      rw [← ih _ hl1p hl1b]
      apply List.flatMap_congr
      intro i hi
      have hin : i < n := List.mem_range.1 hi
      congr 1
      rw [List.filter_filter]
      apply List.filter_congr
      intro j hj
      by_cases hkj : k j = (i : ℤ)
      · have hne : ((k j == (n : ℤ)) = false) := by
          simp only [beq_eq_false_iff_ne, ne_eq, hkj]
          intro hc
          have : i = n := by exact_mod_cast hc
          omega
        simp [hkj, hne]
        omega
      · simp [hkj]
    rw [hmain, ← List.map_append, ← hsplit]

/-- Helper: mapping over a self-zip is mapping over the list. -/
theorem zip_self_map {α β : Type} (l : List α) (f : α × α → β) :
    (l.zip l).map f = l.map (fun x => f (x, x)) := by
  induction l with
  | nil => rfl
  | cons x t ih =>
    simp only [List.zip_cons_cons, List.map_cons, ih]

/-- Helper: the cell-level identity between the accumulation order of the
source (-a*d2/b**2 + d1/b) and the quotient-rule form (d1/b - a*d2/b**2),
NaN and division-by-zero cases included. -/
theorem vAddForm (a b d1 d2 : V) :
    vadd (vdiv (vmul (vneg a) d2) (vmul b b)) (vdiv d1 b) =
      vsub (vdiv d1 b) (vdiv (vmul a d2) (vmul b b)) := by
  cases a with
  | nan => cases b <;> cases d1 <;> cases d2 <;> simp [vadd, vsub, vmul, vdiv, vneg]
  | fin qa =>
    cases b with
    | nan => cases d1 <;> cases d2 <;> simp [vadd, vsub, vmul, vdiv, vneg]
    | fin qb =>
      cases d1 with
      | nan => cases d2 <;> simp [vadd, vsub, vmul, vdiv, vneg]
      | fin q1 =>
        cases d2 with
        | nan =>
          simp [vadd, vsub, vmul, vdiv, vneg]
        | fin q2 =>
          simp only [vmul, vneg, vdiv]
          by_cases hb : qb = 0
          · rw [if_pos (by rw [hb]; ring), if_pos hb, if_pos (by rw [hb]; ring)]
            simp [vadd, vsub]
          · rw [if_neg (by intro hc; exact hb (by
              have := mul_self_eq_zero.1 hc; exact this))]
            rw [if_neg hb]
            rw [if_neg (by intro hc; exact hb (mul_self_eq_zero.1 hc))]
            simp only [vadd, vsub, V.fin.injEq]
            field_simp
            ring

/-- Helper: the row-level version of the quotient-rule identity. -/
theorem rowForm : ∀ (A B D1 D2 : Row),
    rAdd (rDiv (rMul (rNeg A) D2) (rMul B B)) (rDiv D1 B) =
      rSub (rDiv D1 B) (rDiv (rMul A D2) (rMul B B)) := by
  intro A
  induction A with
  | nil =>
    intro B D1 D2
    cases B <;> cases D1 <;> cases D2 <;>
      simp [rAdd, rSub, rMul, rDiv, rNeg]
  | cons a as ih =>
    intro B D1 D2
    cases B with
    | nil => cases D1 <;> cases D2 <;> simp [rAdd, rSub, rMul, rDiv, rNeg]
    | cons b bs =>
      cases D1 with
      | nil => cases D2 <;> simp [rAdd, rSub, rMul, rDiv, rNeg]
      | cons d1 ds1 =>
        cases D2 with
        | nil => simp [rAdd, rSub, rMul, rDiv, rNeg]
        | cons d2 ds2 =>
          simp only [rAdd, rSub, rMul, rDiv, rNeg, List.map_cons,
            List.zipWith_cons_cons, List.cons.injEq]
          constructor
          · exact vAddForm a b d1 d2
          · exact ih bs ds1 ds2

/-- Helper: sorted gradient samples give a sorted sample-head key on the
row index range. -/
theorem pairwise_sampleHead_range (g1 : GradientBlock)
    (hs : SortedGradSamples g1) :
    List.Pairwise (fun a b => sampleHead g1 a ≤ sampleHead g1 b)
      (List.range g1.samples.rows.length) := by
  have h1 := List.pairwise_iff_getElem.1 hs
  refine (List.pairwise_lt_range _).imp_of_mem ?_
  intro a b ha hb hab
  have ha' : a < g1.samples.rows.length := List.mem_range.1 ha
  have hb' : b < g1.samples.rows.length := List.mem_range.1 hb
  unfold sampleHead
  rw [List.getD_eq_getElem _ _ ha', List.getD_eq_getElem _ _ hb']
  exact h1 a b ha' hb' hab

/-- Helper: when the gradient samples are sorted by their sample column and
reference valid parent samples, the gradient values produced by the divide
block operation align row-by-row with the gradient rows, each row being the
quotient rule for its referenced parent sample. -/
theorem divideGradValues_sorted (b1 b2 : TensorBlock) (g1 g2 : GradientBlock)
    (hsamp : g1.samples = g2.samples)
    (hsort : SortedGradSamples g1)
    (hvalid : ValidGradRefs g1 b1) :
    divideGradValues b1 b2 g1 g2 =
      (List.range g1.samples.rows.length).map (fun j =>
        rSub
          (rDiv (g1.values.getD j [])
            (b2.values.getD (sampleHead g1 j).toNat []))
          (rDiv
            (rMul (b1.values.getD (sampleHead g1 j).toNat [])
              (g2.values.getD j []))
            (rMul (b2.values.getD (sampleHead g1 j).toNat [])
              (b2.values.getD (sampleHead g1 j).toNat [])))) := by
  unfold divideGradValues
  have hsel : ∀ i, selIdx g2 i = selIdx g1 i := by
    intro i; unfold selIdx sampleHead; rw [hsamp]
  have step1 : (List.range b1.samples.rows.length).flatMap
      (fun i => ((selIdx g1 i).zip (selIdx g2 i)).map fun jj =>
        rAdd
          (rDiv (rMul (rNeg (b1.values.getD i [])) (g2.values.getD jj.2 []))
            (rMul (b2.values.getD i []) (b2.values.getD i [])))
          (rDiv (g1.values.getD jj.1 []) (b2.values.getD i []))) =
      (List.range b1.samples.rows.length).flatMap
        (fun i => (selIdx g1 i).map fun j =>
          rAdd
            (rDiv (rMul (rNeg (b1.values.getD (sampleHead g1 j).toNat []))
                (g2.values.getD j []))
              (rMul (b2.values.getD (sampleHead g1 j).toNat [])
                (b2.values.getD (sampleHead g1 j).toNat [])))
            (rDiv (g1.values.getD j [])
              (b2.values.getD (sampleHead g1 j).toNat []))) := by
    apply List.flatMap_congr
    intro i _
    rw [hsel i, zip_self_map]
    apply List.map_congr_left
    intro j hj
    have hkj : sampleHead g1 j = (i : ℤ) := by
      have := (List.mem_filter.1 hj).2
      simpa using this
    rw [hkj]
    simp
  rw [step1]
  have step2 := range_flatMap_filter (sampleHead g1)
    (fun j =>
      rAdd
        (rDiv (rMul (rNeg (b1.values.getD (sampleHead g1 j).toNat []))
            (g2.values.getD j []))
          (rMul (b2.values.getD (sampleHead g1 j).toNat [])
            (b2.values.getD (sampleHead g1 j).toNat [])))
        (rDiv (g1.values.getD j [])
          (b2.values.getD (sampleHead g1 j).toNat [])))
    b1.samples.rows.length (List.range g1.samples.rows.length)
    (pairwise_sampleHead_range g1 hsort)
    (by
      intro j hj
      have hj' : j < g1.samples.rows.length := List.mem_range.1 hj
      have hm : g1.samples.rows[j] ∈ g1.samples.rows := List.getElem_mem hj'
      have := hvalid _ hm
      unfold sampleHead
      rw [List.getD_eq_getElem _ _ hj']
      exact this)
  simp only [selIdx]
  rw [step2]
  apply List.map_congr_left
  intro j _
  exact rowForm _ _ _ _

/-- Helper: the gradient list produced by the divide block operation maps
each parameter of the first block to the rebuilt gradient that copies its
metadata and holds the recomputed values. -/
theorem divideGradPairs_lookup (b1 b2 : TensorBlock) :
    ∀ (gs out : List (String × GradientBlock)),
      divideGradPairs b1 b2 gs = .ok out →
      ∀ (p : String) (g1 : GradientBlock), lookupGrad gs p = some g1 →
        ∃ g2, lookupGrad b2.gradients p = some g2 ∧
          lookupGrad out p = some
            ⟨g1.samples, g1.components, g1.properties,
              divideGradValues b1 b2 g1 g2, []⟩ := by
  intro gs
  induction gs with
  | nil => intro out _ p g1 hl; cases hl
  | cons hd rest ih =>
    obtain ⟨q, h1⟩ := hd
    intro out hok p g1 hl
    simp only [divideGradPairs] at hok
    cases hb2 : lookupGrad b2.gradients q with
    | none => rw [hb2] at hok; cases hok
    | some h2 =>
      rw [hb2] at hok
      dsimp only at hok
      by_cases hn1 : h1.gradientsList != []
      · rw [if_pos hn1] at hok; cases hok
      · rw [if_neg hn1] at hok
        by_cases hn2 : h2.gradientsList != []
        · rw [if_pos hn2] at hok; cases hok
        · rw [if_neg hn2] at hok
          cases hrest : divideGradPairs b1 b2 rest with
          | error e => rw [hrest] at hok; cases hok
          | ok tail =>
            rw [hrest] at hok
            dsimp only at hok
            cases hok
            by_cases hq : q = p
            · subst hq
              simp only [lookupGrad, List.find?_cons, beq_self_eq_true] at hl ⊢
              simp only [Option.map_some'] at hl
              cases hl
              exact ⟨h2, hb2, rfl⟩
            · have hqb : (q == p) = false := by simp [hq]
              simp only [lookupGrad, List.find?_cons, hqb] at hl ⊢
              exact ih tail hrest p g1 hl

/-- Helper: membership in a sample-selection index list. -/
theorem selIdx_mem {g1 : GradientBlock} {i j : ℕ} (h : j ∈ selIdx g1 i) :
    j < g1.samples.rows.length ∧ sampleHead g1 j = (i : ℤ) := by
  unfold selIdx at h
  rw [List.mem_filter] at h
  exact ⟨List.mem_range.1 h.1, by simpa using h.2⟩

/-- Helper: indexing a mapped range. -/
theorem getD_map_range {α : Type} {m j : ℕ} (f : ℕ → α) (d : α)
    (h : j < m) : ((List.range m).map f).getD j d = f j := by
  rw [List.getD_eq_getElem _ _ (by simpa using h)]
  simp

/-- Helper: the combined specification of one output gradient of the divide
block operation under the sortedness precondition: metadata copied from the
first gradient and values rows aligned to the quotient rule. -/
theorem divideBlockBlock_grad_spec (b1 b2 c : TensorBlock) (p : String)
    (g1 g2 : GradientBlock)
    (hdiv : divideBlockBlock b1 b2 = .ok c)
    (hg1 : lookupGrad b1.gradients p = some g1)
    (hg2 : lookupGrad b2.gradients p = some g2)
    (hsamp : g1.samples = g2.samples)
    (hsort : SortedGradSamples g1)
    (hvalid : ValidGradRefs g1 b1) :
    ∃ gOut, lookupGrad c.gradients p = some gOut ∧
      gOut.samples = g1.samples ∧ gOut.components = g1.components ∧
      gOut.properties = g1.properties ∧
      gOut.values.length = g1.samples.rows.length ∧
      ∀ j, j < g1.samples.rows.length →
        gOut.values.getD j [] =
          rSub
            (rDiv (g1.values.getD j [])
              (b2.values.getD (sampleHead g1 j).toNat []))
            (rDiv
              (rMul (b1.values.getD (sampleHead g1 j).toNat [])
                (g2.values.getD j []))
              (rMul (b2.values.getD (sampleHead g1 j).toNat [])
                (b2.values.getD (sampleHead g1 j).toNat []))) := by
  unfold divideBlockBlock at hdiv
  cases hpairs : divideGradPairs b1 b2 b1.gradients with
  | error e => rw [hpairs] at hdiv; cases hdiv
  | ok gs =>
    rw [hpairs] at hdiv
    dsimp only at hdiv
    cases hdiv
    obtain ⟨g2x, hg2x, hout⟩ :=
      divideGradPairs_lookup b1 b2 b1.gradients gs hpairs p g1 hg1
    rw [hg2] at hg2x
    cases hg2x
    refine ⟨_, hout, rfl, rfl, rfl, ?_, ?_⟩
    · dsimp only
      rw [divideGradValues_sorted b1 b2 g1 g2 hsamp hsort hvalid]
      simp
    · intro j hj
      dsimp only
      rw [divideGradValues_sorted b1 b2 g1 g2 hsamp hsort hvalid]
      rw [getD_map_range _ _ hj]

/-- C10: in divide, the output gradient samples, components and properties
labels are copied verbatim from the first operand gradient while the values
rows are rebuilt grouped by ascending parent sample; under the precondition
that the gradient lists its samples sorted ascending by the sample column
(and that its rows reference valid parent samples), row j of the output
values is exactly the quotient rule for the parent sample referenced by
samples row j, so values rows correspond to samples rows. -/
theorem divide_gradient_metadata_and_alignment (b1 b2 c : TensorBlock)
    (p : String) (g1 g2 : GradientBlock)
    (hdiv : divideBlockBlock b1 b2 = .ok c)
    (hg1 : lookupGrad b1.gradients p = some g1)
    (hg2 : lookupGrad b2.gradients p = some g2)
    (hsamp : g1.samples = g2.samples)
    (hsort : SortedGradSamples g1)
    (hvalid : ValidGradRefs g1 b1) :
    ∃ gOut, lookupGrad c.gradients p = some gOut ∧
      gOut.samples = g1.samples ∧ gOut.components = g1.components ∧
      gOut.properties = g1.properties ∧
      gOut.values.length = g1.samples.rows.length ∧
      ∀ j, j < g1.samples.rows.length →
        gOut.values.getD j [] =
          rSub
            (rDiv (g1.values.getD j [])
              (b2.values.getD (sampleHead g1 j).toNat []))
            (rDiv
              (rMul (b1.values.getD (sampleHead g1 j).toNat [])
                (g2.values.getD j []))
              (rMul (b2.values.getD (sampleHead g1 j).toNat [])
                (b2.values.getD (sampleHead g1 j).toNat []))) :=
  divideBlockBlock_grad_spec b1 b2 c p g1 g2 hdiv hg1 hg2 hsamp hsort hvalid

/-- Witness for C10 at the concrete sorted pair srtA / srtB. -/
theorem divide_gradient_metadata_and_alignment_witness :
    ∃ gOut, lookupGrad srtC.gradients "g" = some gOut ∧
      gOut.samples = sGradA.samples ∧ gOut.components = sGradA.components ∧
      gOut.properties = sGradA.properties ∧
      gOut.values.length = sGradA.samples.rows.length ∧
      ∀ j, j < sGradA.samples.rows.length →
        gOut.values.getD j [] =
          rSub
            (rDiv (sGradA.values.getD j [])
              (srtB.values.getD (sampleHead sGradA j).toNat []))
            (rDiv
              (rMul (srtA.values.getD (sampleHead sGradA j).toNat [])
                (sGradB.values.getD j []))
              (rMul (srtB.values.getD (sampleHead sGradA j).toNat [])
                (srtB.values.getD (sampleHead sGradA j).toNat []))) :=
  divide_gradient_metadata_and_alignment srtA srtB srtC "g" sGradA sGradB (by decide) (by decide)
    (by decide) (by decide) (by decide) (by decide)

/-- C2 amended: for block operands with matching gradient metadata, every
gradient of divide obeys the quotient rule value-by-value - for each parent
sample i the output gradient rows referencing i equal dA(i)/B[i] minus
A[i] dB(i)/B[i] squared - provided the first operand gradient lists its
samples sorted ascending by the sample column and references valid parent
samples (the counterexample shows the unsorted case fails). -/
theorem divide_gradient_quotient_rule_sorted (b1 b2 c : TensorBlock) (p : String)
    (g1 g2 : GradientBlock)
    (hdiv : divideBlockBlock b1 b2 = .ok c)
    (hg1 : lookupGrad b1.gradients p = some g1)
    (hg2 : lookupGrad b2.gradients p = some g2)
    (hsamp : g1.samples = g2.samples)
    (hsort : SortedGradSamples g1)
    (hvalid : ValidGradRefs g1 b1) :
    ∃ gOut, lookupGrad c.gradients p = some gOut ∧
      ∀ i : ℕ,
        gradRowsFor gOut i =
          ((gradRowsFor g1 i).zip (gradRowsFor g2 i)).map (fun rr =>
            rSub (rDiv rr.1 (b2.values.getD i []))
              (rDiv (rMul (b1.values.getD i []) rr.2)
                (rMul (b2.values.getD i []) (b2.values.getD i [])))) := by
  obtain ⟨gOut, hout, hsmp, hcmp, hprp, hlen, hrows⟩ :=
    divideBlockBlock_grad_spec b1 b2 c p g1 g2 hdiv hg1 hg2 hsamp hsort hvalid
  refine ⟨gOut, hout, ?_⟩
  intro i
  have hselOut : selIdx gOut i = selIdx g1 i := by
    unfold selIdx sampleHead
    rw [hsmp]
  have hsel2 : selIdx g2 i = selIdx g1 i := by
    unfold selIdx sampleHead
    rw [hsamp]
  unfold gradRowsFor
  rw [hselOut, hsel2, List.zip_map', List.map_map]
  apply List.map_congr_left
  intro j hj
  obtain ⟨hjm, hkj⟩ := selIdx_mem hj
  have := hrows j hjm
  rw [this]
  simp only [Function.comp]
  rw [hkj]
  simp

/-- Witness for C2 amended at the concrete sorted pair srtA / srtB. -/
theorem divide_gradient_quotient_rule_sorted_witness :
    ∃ gOut, lookupGrad srtC.gradients "g" = some gOut ∧
      ∀ i : ℕ,
        gradRowsFor gOut i =
          ((gradRowsFor sGradA i).zip (gradRowsFor sGradB i)).map (fun rr =>
            rSub (rDiv rr.1 (srtB.values.getD i []))
              (rDiv (rMul (srtA.values.getD i []) rr.2)
                (rMul (srtB.values.getD i []) (srtB.values.getD i [])))) :=
  divide_gradient_quotient_rule_sorted srtA srtB srtC "g" sGradA sGradB (by decide) (by decide)
    (by decide) (by decide) (by decide) (by decide)

end Equistore
